import Mathlib

/-!
Verification of the TLS material provisioner in `src/server/utils.js`
(`utils.tlsInit`, `createDH`, `readFile`).

The JavaScript is shallowly embedded: file contents and PEM buffers are
`List Char`, the persisted key-value store entry `"dhparam"` is an
`Option (List Char)`, and the asynchronous callback chains of `tlsInit`
are flattened into a pure function from an environment, a configuration
and a store state to a `CallResult`.  The `CallResult` additionally
counts store reads (`db.get`), store writes (`db.set`) and DH parameter
inspections (`pem.getDhparamInfo`) so that frame conditions can be
stated.  External collaborators (`pem`, `fs`, `db`, `path.resolve`) are
oracles carried in the environment, except where noted.
-/

namespace Droppy

/-- JavaScript truthiness of a possibly-undefined string value:
`undefined` and the empty string are falsy. -/
def truthy : Option (List Char) → Bool
  | none => false
  | some s => !s.isEmpty

/-- JavaScript truthiness of a possibly-undefined configuration path. -/
def cfgTruthy : Option String → Bool
  | none => false
  | some s => !s.isEmpty

/-- The PEM begin delimiter `certStart` from `tlsInit`. -/
def certStart : List Char := "-----BEGIN CERTIFICATE-----".data

/-- The PEM end delimiter `certEnd` from `tlsInit`. -/
def certEnd : List Char := "-----END CERTIFICATE-----".data

/-- What `fs.stat` can find at a path: a regular file with contents, a
non-regular entry (e.g. a directory), or nothing. -/
inductive FileEntry where
  | file (contents : List Char)
  | dir
  | absent
deriving DecidableEq

/-- Embedding of the internal `readFile(p, cb)` helper: a non-string
path yields `undefined`; a stat failure or a non-regular file yields
`undefined`; otherwise the file contents are returned. -/
def readFile (fs : String → FileEntry) : Option String → Option (List Char)
  | none => none
  | some p =>
    match fs p with
    | .file c => some c
    | .dir => none
    | .absent => none

/-- Modelled from Node's POSIX `path.resolve(base, p)` with two
arguments, as used in `tlsInit`: an absolute `p` (leading `/`) is
returned as-is, otherwise `p` is joined onto `base`.  Node additionally
normalizes `.`/`..` segments; that normalization is not modelled and all
concrete paths used below are already normal. -/
def resolvePath (base : String) (p : String) : String :=
  if p.data.head? = some '/' then p else base ++ "/" ++ p

/-- The TLS configuration object `opts` passed to `tlsInit`. -/
structure TLSConfig where
  key : Option String
  cert : Option String
  ca : Option String
  dhparam : Option String
deriving DecidableEq

/-- The bundle passed to `callback` on success. -/
structure TLSMaterial where
  selfsigned : Bool
  key : List Char
  cert : List Char
  ca : Option (List Char)
  dhparam : Option (List Char)
deriving DecidableEq

/-- The terminal error kinds of a provisioning call (section 7 of the
specification), in source order of the code sites that raise them. -/
inductive TLSError where
  | MissingKeyFile
  | MissingCertFile
  | MissingCAFile
  | MissingDHParamFile
  | DHInspectionError
  | DHGenerationError
  | CertGenerationError
deriving DecidableEq

/-- The environment of oracles for one provisioning call: the file
system, the home directory `paths.home`, `pem.getDhparamInfo` as a
partial size function, the outcome and value of `pem.createDhparam`,
and the outcome of `pem.createCertificate`. -/
structure Env where
  fs : String → FileEntry
  home : String
  inspectSize : List Char → Option Nat
  genOk : Bool
  genDH : List Char
  certGen : Option (List Char × List Char)

instance : DecidableEq (Except TLSError TLSMaterial) := fun a b =>
  match a, b with
  | .error a, .error b =>
    if h : a = b then .isTrue (by rw [h]) else .isFalse (by simp [h])
  | .ok a, .ok b =>
    if h : a = b then .isTrue (by rw [h]) else .isFalse (by simp [h])
  | .error _, .ok _ => .isFalse (by simp)
  | .ok _, .error _ => .isFalse (by simp)

/-- Result of a provisioning call: the callback outcome, the final
persisted-store `"dhparam"` entry, and counters of `db.get`, `db.set`
and `pem.getDhparamInfo` invocations made during the call. -/
structure CallResult where
  out : Except TLSError TLSMaterial
  store : Option (List Char)
  reads : Nat
  writes : Nat
  inspects : Nat
deriving DecidableEq

/-- The needle occurs in the haystack at index `i`. -/
def occursAt (hay needle : List Char) (i : Nat) : Prop :=
  (hay.drop i).take needle.length = needle

instance (hay needle : List Char) (i : Nat) : Decidable (occursAt hay needle i) :=
  inferInstanceAs (Decidable ((hay.drop i).take needle.length = needle))

/-- JavaScript `hay.indexOf(needle)`: index of the first occurrence,
`none` standing for `-1`. -/
def firstOccur (hay needle : List Char) : Option Nat :=
  match hay with
  | [] => if needle.isEmpty then some 0 else none
  | h :: t =>
    if (h :: t).take needle.length == needle then some 0
    else (firstOccur t needle).map (· + 1)

/-- JavaScript `hay.lastIndexOf(needle)`: index of the last occurrence,
`none` standing for `-1`. -/
def lastOccur (hay needle : List Char) : Option Nat :=
  match hay with
  | [] => if needle.isEmpty then some 0 else none
  | h :: t =>
    match lastOccur t needle with
    | some i => some (i + 1)
    | none => if (h :: t).take needle.length == needle then some 0 else none

/-- JavaScript `cert.indexOf(certEnd) + certEnd.length` from the
combined-bundle split: with no occurrence, `indexOf` is `-1` and the
expression is `certEnd.length - 1`. -/
def certEndCut (cert : List Char) : Nat :=
  match firstOccur cert certEnd with
  | some i => i + certEnd.length
  | none => certEnd.length - 1

/-- The `finish` closure of the user-supplied branch of `tlsInit`:
split a combined certificate into leaf and chain when no CA was read
and the begin delimiter occurs more than once, then build the bundle. -/
def finish (key cert : List Char) (ca : Option (List Char)) (dh : List Char) : TLSMaterial :=
  if !truthy ca && (firstOccur cert certStart != lastOccur cert certStart) then
    { selfsigned := false
      key := key
      cert := cert.take (certEndCut cert)
      ca := some (cert.drop ((lastOccur cert certStart).getD 0))
      dhparam := some dh }
  else
    { selfsigned := false, key := key, cert := cert, ca := ca, dhparam := some dh }

/-- The four resolved paths handed to `async.map` in the user-supplied
branch: key and cert unconditionally, CA and dhparam only when the
configured value is truthy. -/
def userPaths (env : Env) (opts : TLSConfig) :
    Option String × Option String × Option String × Option String :=
  (opts.key.map (resolvePath env.home),
   opts.cert.map (resolvePath env.home),
   if cfgTruthy opts.ca then opts.ca.map (resolvePath env.home) else none,
   if cfgTruthy opts.dhparam then opts.dhparam.map (resolvePath env.home) else none)

/-- The `data` array produced by `async.map(certPaths, readFile, ...)`. -/
def userData (env : Env) (opts : TLSConfig) :
    Option (List Char) × Option (List Char) × Option (List Char) × Option (List Char) :=
  ((userPaths env opts).1.elim none (fun p => readFile env.fs (some p)),
   (userPaths env opts).2.1.elim none (fun p => readFile env.fs (some p)),
   (userPaths env opts).2.2.1.elim none (fun p => readFile env.fs (some p)),
   (userPaths env opts).2.2.2.elim none (fun p => readFile env.fs (some p)))

/-- The user-supplied branch of `tlsInit` after the reads: the four
presence checks in source order, then DH resolution.  `createDH` is
inlined: on generator success it performs `db.set("dhparam", fresh)`
before the callback, on failure it propagates the error. -/
def userBranch (env : Env) (opts : TLSConfig) (store : Option (List Char))
    (key cert ca dhparam : Option (List Char)) : CallResult :=
  if !truthy key then ⟨.error .MissingKeyFile, store, 0, 0, 0⟩
  else if !truthy cert then ⟨.error .MissingCertFile, store, 0, 0, 0⟩
  else if cfgTruthy opts.ca && !truthy ca then ⟨.error .MissingCAFile, store, 0, 0, 0⟩
  else if cfgTruthy opts.dhparam && !truthy dhparam then ⟨.error .MissingDHParamFile, store, 0, 0, 0⟩
  else if truthy dhparam then
    match env.inspectSize (dhparam.getD []) with
    | none => ⟨.error .DHInspectionError, store, 0, 0, 1⟩
    | some size =>
      if size < 1024 then
        if env.genOk then
          ⟨.ok (finish (key.getD []) (cert.getD []) ca env.genDH), some env.genDH, 0, 1, 1⟩
        else ⟨.error .DHGenerationError, store, 0, 0, 1⟩
      else ⟨.ok (finish (key.getD []) (cert.getD []) ca (dhparam.getD [])), store, 0, 0, 1⟩
  else if truthy store then
    ⟨.ok (finish (key.getD []) (cert.getD []) ca (store.getD [])), store, 1, 0, 0⟩
  else if env.genOk then
    ⟨.ok (finish (key.getD []) (cert.getD []) ca env.genDH), some env.genDH, 1, 1, 0⟩
  else ⟨.error .DHGenerationError, store, 1, 0, 0⟩

/-- The self-signed branch of `tlsInit`: `pem.createCertificate`, then
`db.get("dhparam")`, then inspect/regenerate.  `createDH` is inlined as
in `userBranch`. -/
def selfBranch (env : Env) (store : Option (List Char)) : CallResult :=
  match env.certGen with
  | none => ⟨.error .CertGenerationError, store, 0, 0, 0⟩
  | some kc =>
    if truthy store then
      match env.inspectSize (store.getD []) with
      | none => ⟨.error .DHInspectionError, store, 1, 0, 1⟩
      | some size =>
        if size < 1024 then
          if env.genOk then
            ⟨.ok ⟨true, kc.1, kc.2, none, some env.genDH⟩, some env.genDH, 1, 1, 1⟩
          else ⟨.error .DHGenerationError, store, 1, 0, 1⟩
        else ⟨.ok ⟨true, kc.1, kc.2, none, some (store.getD [])⟩, store, 1, 0, 1⟩
    else if env.genOk then
      ⟨.ok ⟨true, kc.1, kc.2, none, some env.genDH⟩, some env.genDH, 1, 1, 0⟩
    else ⟨.error .DHGenerationError, store, 1, 0, 0⟩

/-- Embedding of `utils.tlsInit(opts, callback)`: user-supplied mode
when both `opts.key` and `opts.cert` are strings, self-signed mode
otherwise. -/
def tlsInit (env : Env) (opts : TLSConfig) (store : Option (List Char)) : CallResult :=
  if opts.key.isSome && opts.cert.isSome then
    userBranch env opts store (userData env opts).1 (userData env opts).2.1
      (userData env opts).2.2.1 (userData env opts).2.2.2
  else selfBranch env store

/-! Concrete fixtures used by witnesses and counterexamples. -/

/-- A concrete private key file content. -/
def keyPem : List Char := "KEYDATA".data

/-- A concrete single-certificate file content (no PEM delimiters, so
no combined-bundle split is triggered on it). -/
def certPem : List Char := "CERTDATA".data

/-- A concrete DH parameter that the inspection oracle rates at 512
bits. -/
def weakDH : List Char := "WEAKDH".data

/-- A concrete DH parameter that the inspection oracle rates at 2048
bits. -/
def strongDH : List Char := "STRONGDH".data

/-- A concrete freshly generated DH parameter. -/
def freshDH : List Char := "FRESHDH".data

/-- A concrete self-signed service key. -/
def svcKey : List Char := "SSKEY".data

/-- A concrete self-signed certificate. -/
def svcCert : List Char := "SSCERT".data

/-- A concrete leaf certificate for the combined-bundle split. -/
def leafPem : List Char := certStart ++ "\nL\n".data ++ certEnd

/-- A concrete chain certificate for the combined-bundle split. -/
def chainPem : List Char := certStart ++ "\nC\n".data ++ certEnd

/-- The concrete home directory. -/
def homeDir : String := "/home/svc/.droppy"

/-- A concrete file system with key, cert, combined cert, DH parameter
files, and a directory sitting at a path configured as a key. -/
def fsA : String → FileEntry := fun p =>
  if p = "/home/svc/.droppy/tls.key" then .file keyPem
  else if p = "/home/svc/.droppy/tls.crt" then .file certPem
  else if p = "/home/svc/.droppy/combined.crt" then .file (leafPem ++ chainPem)
  else if p = "/home/svc/.droppy/weak.dh" then .file weakDH
  else if p = "/home/svc/.droppy/strong.dh" then .file strongDH
  else if p = "/home/svc/.droppy/dir.key" then .dir
  else if p = "/etc/tls/server.key" then .file keyPem
  else .absent

/-- A concrete inspection oracle: `weakDH` is 512 bits, everything else
2048 bits. -/
def sizeOracle : List Char → Option Nat := fun d =>
  if d = weakDH then some 512 else some 2048

/-- The concrete environment used by witnesses and counterexamples. -/
def envA : Env :=
  { fs := fsA
    home := homeDir
    inspectSize := sizeOracle
    genOk := true
    genDH := freshDH
    certGen := some (svcKey, svcCert) }

/-! Occurrence lemmas relating `firstOccur`/`lastOccur` to `occursAt`. -/

theorem occursAt_zero {hay needle : List Char} :
    occursAt hay needle 0 ↔ hay.take needle.length = needle := by
  simp [occursAt]

theorem occursAt_succ_cons {c : Char} {t needle : List Char} {i : Nat} :
    occursAt (c :: t) needle (i + 1) ↔ occursAt t needle i := by
  simp [occursAt, List.drop_succ_cons]

theorem occursAt_nil {needle : List Char} {i : Nat} (h : occursAt [] needle i) :
    needle = [] := by
  simpa [occursAt] using h.symm

theorem occursAt_length_le {hay needle : List Char} {i : Nat}
    (hne : needle ≠ []) (h : occursAt hay needle i) :
    i + needle.length ≤ hay.length := by
  have hl := congrArg List.length h
  rw [List.length_take, List.length_drop] at hl
  have hpos : 0 < needle.length := List.length_pos.mpr hne
  omega

theorem firstOccur_occursAt {hay needle : List Char} {i : Nat}
    (h : firstOccur hay needle = some i) : occursAt hay needle i := by
  induction hay generalizing i with
  | nil =>
    simp only [firstOccur] at h
    split at h
    · cases h
      rename_i hb
      simp_all [occursAt, List.isEmpty_iff]
    · cases h
  | cons c t ih =>
    simp only [firstOccur] at h
    split at h
    · cases h
      rename_i hb
      exact occursAt_zero.mpr (by simpa using hb)
    · rcases Option.map_eq_some'.mp h with ⟨j, hj, rfl⟩
      exact occursAt_succ_cons.mpr (ih hj)

theorem firstOccur_min {hay needle : List Char} {i : Nat}
    (h : firstOccur hay needle = some i) :
    ∀ j, j < i → ¬ occursAt hay needle j := by
  induction hay generalizing i with
  | nil =>
    simp only [firstOccur] at h
    split at h
    · cases h
      intro j hj _
      omega
    · cases h
  | cons c t ih =>
    simp only [firstOccur] at h
    split at h
    · cases h
      intro j hj _
      omega
    · rcases Option.map_eq_some'.mp h with ⟨k, hk, rfl⟩
      intro j hj hocc
      match j with
      | 0 =>
        rename_i hb
        exact hb (by simpa using occursAt_zero.mp hocc)
      | j' + 1 =>
        exact ih hk j' (by omega) (occursAt_succ_cons.mp hocc)

theorem occursAt_firstOccur {hay needle : List Char} {i : Nat}
    (h : occursAt hay needle i) :
    ∃ j, firstOccur hay needle = some j ∧ j ≤ i := by
  induction hay generalizing i with
  | nil =>
    have hne : needle = [] := occursAt_nil h
    exact ⟨0, by simp [firstOccur, hne], Nat.zero_le _⟩
  | cons c t ih =>
    by_cases hb : ((c :: t).take needle.length == needle) = true
    · exact ⟨0, by simp [firstOccur, hb], Nat.zero_le _⟩
    · match i with
      | 0 => exact absurd (by simpa using occursAt_zero.mp h) (by simpa using hb)
      | i' + 1 =>
        rcases ih (occursAt_succ_cons.mp h) with ⟨j, hj, hle⟩
        exact ⟨j + 1, by simp [firstOccur, hb, hj], by omega⟩

theorem lastOccur_occursAt {hay needle : List Char} {i : Nat}
    (h : lastOccur hay needle = some i) : occursAt hay needle i := by
  induction hay generalizing i with
  | nil =>
    simp only [lastOccur] at h
    split at h
    · cases h
      rename_i hb
      simp_all [occursAt, List.isEmpty_iff]
    · cases h
  | cons c t ih =>
    simp only [lastOccur] at h
    split at h
    · rename_i k hk
      cases h
      exact occursAt_succ_cons.mpr (ih hk)
    · split at h
      · cases h
        rename_i hb
        exact occursAt_zero.mpr (by simpa using hb)
      · cases h

theorem occursAt_lastOccur {hay needle : List Char} {i : Nat}
    (h : occursAt hay needle i) : ∃ j, lastOccur hay needle = some j := by
  induction hay generalizing i with
  | nil =>
    have hne : needle = [] := occursAt_nil h
    exact ⟨0, by simp [lastOccur, hne]⟩
  | cons c t ih =>
    cases hlt : lastOccur t needle with
    | some k => exact ⟨k + 1, by simp [lastOccur, hlt]⟩
    | none =>
      match i with
      | 0 =>
        refine ⟨0, ?_⟩
        have hb : ((c :: t).take needle.length == needle) = true := by
          simpa using occursAt_zero.mp h
        simp [lastOccur, hlt, hb]
      | i' + 1 =>
        rcases ih (occursAt_succ_cons.mp h) with ⟨j, hj⟩
        rw [hlt] at hj
        cases hj

theorem lastOccur_none {hay needle : List Char} {i : Nat}
    (hn : lastOccur hay needle = none) : ¬ occursAt hay needle i := by
  intro h
  rcases occursAt_lastOccur h with ⟨j, hj⟩
  rw [hn] at hj
  cases hj

theorem lastOccur_max {hay needle : List Char} {i : Nat}
    (hne : needle ≠ []) (h : lastOccur hay needle = some i) :
    ∀ j, occursAt hay needle j → j ≤ i := by
  induction hay generalizing i with
  | nil =>
    simp only [lastOccur] at h
    split at h
    · rename_i hb
      exact absurd (List.isEmpty_iff.mp hb) hne
    · cases h
  | cons c t ih =>
    simp only [lastOccur] at h
    split at h
    · rename_i k hk
      cases h
      intro j hocc
      match j with
      | 0 => omega
      | j' + 1 =>
        have := ih hk j' (occursAt_succ_cons.mp hocc)
        omega
    · rename_i hk
      split at h
      · cases h
        intro j hocc
        match j with
        | 0 => omega
        | j' + 1 =>
          exact absurd (occursAt_succ_cons.mp hocc) (lastOccur_none hk)
      · cases h

/-! Transfer of occurrences across list append. -/

theorem take_drop_append {L C : List Char} {i n : Nat} (h : i + n ≤ L.length) :
    ((L ++ C).drop i).take n = (L.drop i).take n := by
  rw [List.drop_append_eq_append_drop]
  have h1 : i - L.length = 0 := by omega
  rw [h1, List.drop_zero, List.take_append_eq_append_take]
  have h2 : n - (L.drop i).length = 0 := by
    rw [List.length_drop]
    omega
  rw [h2, List.take_zero, List.append_nil]

theorem occursAt_append_left_iff {L C needle : List Char} {i : Nat}
    (h : i + needle.length ≤ L.length) :
    occursAt (L ++ C) needle i ↔ occursAt L needle i := by
  unfold occursAt
  rw [take_drop_append h]

theorem occursAt_append_right_iff {L C needle : List Char} {j : Nat} :
    occursAt (L ++ C) needle (L.length + j) ↔ occursAt C needle j := by
  unfold occursAt
  rw [List.drop_append_eq_append_drop]
  have h1 : L.drop (L.length + j) = [] := List.drop_eq_nil_of_le (by omega)
  have h2 : L.length + j - L.length = j := by omega
  rw [h1, h2, List.nil_append]

theorem certStart_ne_nil : certStart ≠ [] := by decide

theorem certEnd_ne_nil : certEnd ≠ [] := by decide

/-- Core of the combined-bundle split: on a buffer `LEAF ++ CHAIN`
where `LEAF` ends with the first end-delimiter occurrence and `CHAIN`
starts with the only begin-delimiter occurrence of `CHAIN`, `finish`
returns the leaf and chain byte-exactly. -/
theorem finish_split {K LEAF CHAIN D : List Char}
    (hEndAt : occursAt LEAF certEnd (LEAF.length - certEnd.length))
    (hEndLe : certEnd.length ≤ LEAF.length)
    (hEndOnly : ∀ i ≤ LEAF.length, occursAt LEAF certEnd i → i = LEAF.length - certEnd.length)
    (hStart0 : occursAt CHAIN certStart 0)
    (hStartOnly : ∀ i ≤ CHAIN.length, occursAt CHAIN certStart i → i = 0)
    (iL : Nat) (hLeafStart : occursAt LEAF certStart iL) :
    finish K (LEAF ++ CHAIN) none D = ⟨false, K, LEAF, some CHAIN, some D⟩ := by
  have hEndBuf : occursAt (LEAF ++ CHAIN) certEnd (LEAF.length - certEnd.length) :=
    (occursAt_append_left_iff (by omega)).mpr hEndAt
  obtain ⟨jE, hjE, hjEle⟩ := occursAt_firstOccur hEndBuf
  have hjEocc := firstOccur_occursAt hjE
  have hEndPos : 0 < certEnd.length := List.length_pos.mpr certEnd_ne_nil
  have hjEeq : jE = LEAF.length - certEnd.length := by
    have hb : jE + certEnd.length ≤ LEAF.length := by omega
    exact hEndOnly jE (by omega) ((occursAt_append_left_iff hb).mp hjEocc)
  have hStartBuf : occursAt (LEAF ++ CHAIN) certStart LEAF.length := by
    have h0 := (@occursAt_append_right_iff LEAF CHAIN
      certStart 0).mpr hStart0
    simpa using h0
  obtain ⟨jS, hjS⟩ := occursAt_lastOccur hStartBuf
  have hjSocc := lastOccur_occursAt hjS
  have hjSge : LEAF.length ≤ jS := lastOccur_max certStart_ne_nil hjS LEAF.length hStartBuf
  have hjSeq : jS = LEAF.length := by
    have hsplitj : LEAF.length + (jS - LEAF.length) = jS := by omega
    have hco : occursAt CHAIN certStart (jS - LEAF.length) :=
      occursAt_append_right_iff.mp (hsplitj ▸ hjSocc)
    have hlen := occursAt_length_le certStart_ne_nil hco
    have := hStartOnly (jS - LEAF.length) (by omega) hco
    omega
  have hiLlen := occursAt_length_le certStart_ne_nil hLeafStart
  have hiLBuf : occursAt (LEAF ++ CHAIN) certStart iL :=
    (occursAt_append_left_iff hiLlen).mpr hLeafStart
  obtain ⟨jF, hjF, hjFle⟩ := occursAt_firstOccur hiLBuf
  have hsp : 0 < certStart.length := List.length_pos.mpr certStart_ne_nil
  have hne : firstOccur (LEAF ++ CHAIN) certStart ≠ lastOccur (LEAF ++ CHAIN) certStart := by
    rw [hjF, hjS, hjSeq]
    intro hcon
    have : jF = LEAF.length := by
      simpa using hcon
    omega
  have hcond : (!truthy (none : Option (List Char)) &&
      (firstOccur (LEAF ++ CHAIN) certStart != lastOccur (LEAF ++ CHAIN) certStart)) = true := by
    simp [truthy, bne_iff_ne, hne]
  have hcut : certEndCut (LEAF ++ CHAIN) = LEAF.length := by
    unfold certEndCut
    rw [hjE]
    show jE + certEnd.length = LEAF.length
    omega
  have h1 : (LEAF ++ CHAIN).take (certEndCut (LEAF ++ CHAIN)) = LEAF := by
    rw [hcut]
    exact List.take_left _ _
  have h2 : (LEAF ++ CHAIN).drop ((lastOccur (LEAF ++ CHAIN) certStart).getD 0) = CHAIN := by
    rw [hjS, hjSeq]
    exact List.drop_left _ _
  unfold finish
  rw [if_pos hcond, h1, h2]

/-! Branch-selection and component lemmas for `tlsInit`. -/

theorem tlsInit_user {env : Env} {opts : TLSConfig} {store : Option (List Char)}
    (h : (opts.key.isSome && opts.cert.isSome) = true) :
    tlsInit env opts store = userBranch env opts store (userData env opts).1
      (userData env opts).2.1 (userData env opts).2.2.1 (userData env opts).2.2.2 := by
  simp [tlsInit, h]

theorem tlsInit_self {env : Env} {opts : TLSConfig} {store : Option (List Char)}
    (h : (opts.key.isSome && opts.cert.isSome) = false) :
    tlsInit env opts store = selfBranch env store := by
  simp [tlsInit, h]

theorem userData_dhparam_none {env : Env} {opts : TLSConfig}
    (h : cfgTruthy opts.dhparam = false) : (userData env opts).2.2.2 = none := by
  simp [userData, userPaths, h]

theorem finish_dhparam (key cert : List Char) (ca : Option (List Char)) (dh : List Char) :
    (finish key cert ca dh).dhparam = some dh := by
  unfold finish
  split <;> rfl

theorem finish_key (key cert : List Char) (ca : Option (List Char)) (dh : List Char) :
    (finish key cert ca dh).key = key := by
  unfold finish
  split <;> rfl

theorem truthy_some_of_ne {d : List Char} (hd : d ≠ []) : truthy (some d) = true := by
  cases d with
  | nil => exact absurd rfl hd
  | cons c t => rfl

theorem truthy_none : truthy none = false := rfl

/-! The ten claims. -/

/-- Claim C1, counterexample: with no dhparam file configured and the
persisted store holding a parameter whose modulus size is 512 bits, the
user-supplied-certificate path of `tlsInit` returns the stored weak
value unchanged, performs zero strength inspections and no
regeneration — so the strength check does not run identically in both
paths. -/
theorem C1_counterexample :
    envA.inspectSize weakDH = some 512 ∧
    tlsInit envA ⟨some "tls.key", some "tls.crt", none, none⟩ (some weakDH) =
      ⟨.ok ⟨false, keyPem, certPem, none, some weakDH⟩, some weakDH, 1, 0, 0⟩ :=
  ⟨by decide, by decide⟩

/-- Claim C1, amended: with no dhparam file configured and a persisted
parameter present, only the self-signed path runs the strength check on
the persisted value (regenerating when its size is below 1024 bits);
the user-supplied-certificate path returns the stored value as-is,
with no strength inspection at all. -/
theorem C1_amended (env : Env) (opts : TLSConfig) (store : Option (List Char))
    (d : List Char) (hstore : store = some d) (hd : d ≠ []) :
    ((opts.key.isSome && opts.cert.isSome) = true →
      cfgTruthy opts.dhparam = false →
      truthy (userData env opts).1 = true →
      truthy (userData env opts).2.1 = true →
      (cfgTruthy opts.ca && !truthy (userData env opts).2.2.1) = false →
      (tlsInit env opts store).inspects = 0 ∧
      (tlsInit env opts store).store = some d ∧
      (tlsInit env opts store).out = .ok (finish ((userData env opts).1.getD [])
        ((userData env opts).2.1.getD []) ((userData env opts).2.2.1) d)) ∧
    ((opts.key.isSome && opts.cert.isSome) = false →
      ∀ kc, env.certGen = some kc →
      (tlsInit env opts store).inspects = 1 ∧
      (∀ s, env.inspectSize d = some s → s < 1024 → env.genOk = true →
        (tlsInit env opts store).store = some env.genDH ∧
        (tlsInit env opts store).out = .ok ⟨true, kc.1, kc.2, none, some env.genDH⟩) ∧
      (∀ s, env.inspectSize d = some s → 1024 ≤ s →
        (tlsInit env opts store).store = some d ∧
        (tlsInit env opts store).out = .ok ⟨true, kc.1, kc.2, none, some d⟩)) := by
  subst hstore
  have htd : truthy (some d) = true := truthy_some_of_ne hd
  constructor
  · intro h1 h2 h3 h4 h5
    have hdn := @userData_dhparam_none env opts h2
    have hres : tlsInit env opts (some d) =
        ⟨.ok (finish ((userData env opts).1.getD []) ((userData env opts).2.1.getD [])
          ((userData env opts).2.2.1) d), some d, 1, 0, 0⟩ := by
      rw [tlsInit_user h1, hdn]
      simp [userBranch, h2, h3, h4, h5, htd, truthy_none]
    rw [hres]
    exact ⟨rfl, rfl, rfl⟩
  · intro h1 kc hkc
    rw [tlsInit_self h1]
    refine ⟨?_, ?_, ?_⟩
    · cases hs : env.inspectSize d with
      | none => simp [selfBranch, hkc, htd, hs]
      | some s =>
        by_cases hlt : s < 1024
        · by_cases hg : env.genOk = true <;>
            simp [selfBranch, hkc, htd, hs, hlt, hg]
        · simp [selfBranch, hkc, htd, hs, hlt]
    · intro s hs hlt hg
      simp [selfBranch, hkc, htd, hs, hlt, hg]
    · intro s hs hge
      have hlt : ¬ s < 1024 := by omega
      simp [selfBranch, hkc, htd, hs, hlt]

/-- Claim C1, witness for the amended theorem at concrete inputs. -/
theorem C1_amended_witness :
    (tlsInit envA ⟨some "tls.key", some "tls.crt", none, none⟩ (some strongDH)).inspects = 0 ∧
    (tlsInit envA ⟨none, none, none, none⟩ (some weakDH)).store = some freshDH := by
  refine ⟨((C1_amended envA ⟨some "tls.key", some "tls.crt", none, none⟩
    (some strongDH) strongDH rfl (by decide)).1 (by decide) (by decide) (by decide)
    (by decide) (by decide)).1, ?_⟩
  exact (((C1_amended envA ⟨none, none, none, none⟩ (some weakDH) weakDH rfl
    (by decide)).2 (by decide) (svcKey, svcCert) (by decide)).2.1 512 (by decide)
    (by decide) (by decide)).1

/-- Claim C2, counterexample: with a user-configured dhparam file rated
at 512 bits, regeneration overwrites the persisted store entry (the
inlined `createDH` always performs `db.set`), although the weak
candidate came from a user-configured file: the store changes from the
previous strong value to the freshly generated one, with one write. -/
theorem C2_counterexample :
    envA.inspectSize weakDH = some 512 ∧
    (tlsInit envA ⟨some "tls.key", some "tls.crt", none, some "weak.dh"⟩
      (some strongDH)).store = some freshDH ∧
    (tlsInit envA ⟨some "tls.key", some "tls.crt", none, some "weak.dh"⟩
      (some strongDH)).writes = 1 :=
  ⟨by decide, by decide, by decide⟩

/-- Claim C2, amended: when a user-supplied dhparam file is weaker than
1024 bits, regeneration replaces the parameter in the returned bundle
and also overwrites the persisted store entry, since the generation
routine always persists its result; the user's on-disk file itself is
never modified (the provisioner performs no file writes at all). -/
theorem C2_amended (env : Env) (opts : TLSConfig) (store : Option (List Char))
    (D : List Char) (s : Nat)
    (h1 : (opts.key.isSome && opts.cert.isSome) = true)
    (h3 : truthy (userData env opts).1 = true)
    (h4 : truthy (userData env opts).2.1 = true)
    (h5 : (cfgTruthy opts.ca && !truthy (userData env opts).2.2.1) = false)
    (hD : (userData env opts).2.2.2 = some D) (hDne : D ≠ [])
    (hs : env.inspectSize D = some s) (hlt : s < 1024) (hg : env.genOk = true) :
    (tlsInit env opts store).out = .ok (finish ((userData env opts).1.getD [])
      ((userData env opts).2.1.getD []) ((userData env opts).2.2.1) env.genDH) ∧
    (∀ m, (tlsInit env opts store).out = .ok m → m.dhparam = some env.genDH) ∧
    (tlsInit env opts store).store = some env.genDH ∧
    (tlsInit env opts store).writes = 1 := by
  have htD : truthy (some D) = true := truthy_some_of_ne hDne
  have hres : tlsInit env opts store =
      ⟨.ok (finish ((userData env opts).1.getD []) ((userData env opts).2.1.getD [])
        ((userData env opts).2.2.1) env.genDH), some env.genDH, 0, 1, 1⟩ := by
    rw [tlsInit_user h1]
    rw [hD]
    simp [userBranch, h3, h4, h5, htD, hs, hlt, hg]
  rw [hres]
  refine ⟨rfl, ?_, rfl, rfl⟩
  intro m hm
  have : finish ((userData env opts).1.getD []) ((userData env opts).2.1.getD [])
      ((userData env opts).2.2.1) env.genDH = m := by
    simpa using hm
  rw [← this, finish_dhparam]

/-- Claim C2, witness for the amended theorem at concrete inputs. -/
theorem C2_amended_witness :
    (tlsInit envA ⟨some "tls.key", some "tls.crt", none, some "weak.dh"⟩ none).store
      = some freshDH := by
  exact (C2_amended envA ⟨some "tls.key", some "tls.crt", none, some "weak.dh"⟩ none
    weakDH 512 (by decide) (by decide) (by decide) (by decide) (by decide) (by decide)
    (by decide) (by decide) (by decide)).2.2.1

/-- Claim C4, counterexample: in a user-supplied key/cert configuration
with no dhparam file, a persisted parameter rated at 512 bits survives
one provisioning call unchanged, and a subsequent call still leaves the
weak value in the store — no call replaces it with a 2048-bit
parameter, contradicting the claim for this configuration shape. -/
theorem C4_counterexample :
    envA.inspectSize weakDH = some 512 ∧
    (tlsInit envA ⟨some "tls.key", some "tls.crt", none, none⟩ (some weakDH)).store
      = some weakDH ∧
    (tlsInit envA ⟨some "tls.key", some "tls.crt", none, none⟩
      ((tlsInit envA ⟨some "tls.key", some "tls.crt", none, none⟩
        (some weakDH)).store)).store = some weakDH :=
  ⟨by decide, by decide, by decide⟩

/-- Claim C4, amended: regeneration monotonicity holds in self-signed
mode — a persisted parameter below 1024 bits is replaced by one call
with the freshly generated parameter of exactly 2048 bits, and a
subsequent call accepts that value unchanged with no further write.
In user-supplied mode with no dhparam file the weak persisted value is
instead returned as-is and never replaced, and a repeated call behaves
identically. -/
theorem C4_amended (env : Env) (opts : TLSConfig) (d : List Char) (s : Nat)
    (hd : d ≠ []) (hs : env.inspectSize d = some s) (hlt : s < 1024)
    (hg : env.genOk = true) (hgne : env.genDH ≠ [])
    (hg2048 : env.inspectSize env.genDH = some 2048) :
    ((opts.key.isSome && opts.cert.isSome) = false →
      ∀ kc, env.certGen = some kc →
      (tlsInit env opts (some d)).store = some env.genDH ∧
      (tlsInit env opts (some d)).out = .ok ⟨true, kc.1, kc.2, none, some env.genDH⟩ ∧
      tlsInit env opts ((tlsInit env opts (some d)).store) =
        ⟨.ok ⟨true, kc.1, kc.2, none, some env.genDH⟩, some env.genDH, 1, 0, 1⟩) ∧
    ((opts.key.isSome && opts.cert.isSome) = true →
      cfgTruthy opts.dhparam = false →
      truthy (userData env opts).1 = true →
      truthy (userData env opts).2.1 = true →
      (cfgTruthy opts.ca && !truthy (userData env opts).2.2.1) = false →
      (tlsInit env opts (some d)).store = some d ∧
      tlsInit env opts ((tlsInit env opts (some d)).store) = tlsInit env opts (some d)) := by
  have htd : truthy (some d) = true := truthy_some_of_ne hd
  have htg : truthy (some env.genDH) = true := truthy_some_of_ne hgne
  constructor
  · intro h1 kc hkc
    have hres1 : tlsInit env opts (some d) =
        ⟨.ok ⟨true, kc.1, kc.2, none, some env.genDH⟩, some env.genDH, 1, 1, 1⟩ := by
      rw [tlsInit_self h1]
      simp [selfBranch, hkc, htd, hs, hlt, hg]
    have hres2 : tlsInit env opts (some env.genDH) =
        ⟨.ok ⟨true, kc.1, kc.2, none, some env.genDH⟩, some env.genDH, 1, 0, 1⟩ := by
      rw [tlsInit_self h1]
      have hnlt : ¬ (2048 : Nat) < 1024 := by omega
      simp [selfBranch, hkc, htg, hg2048, hnlt]
    rw [hres1]
    exact ⟨rfl, rfl, hres2⟩
  · intro h1 h2 h3 h4 h5
    have hdn := @userData_dhparam_none env opts h2
    have hres : tlsInit env opts (some d) =
        ⟨.ok (finish ((userData env opts).1.getD []) ((userData env opts).2.1.getD [])
          ((userData env opts).2.2.1) d), some d, 1, 0, 0⟩ := by
      rw [tlsInit_user h1, hdn]
      simp [userBranch, h2, h3, h4, h5, htd, truthy_none]
    rw [hres]
    exact ⟨rfl, hres⟩

/-- Claim C4, witness for the amended theorem at concrete inputs. -/
theorem C4_amended_witness :
    (tlsInit envA ⟨none, none, none, none⟩ (some weakDH)).store = some freshDH ∧
    (tlsInit envA ⟨some "tls.key", some "tls.crt", none, none⟩ (some weakDH)).store
      = some weakDH := by
  constructor
  · exact ((C4_amended envA ⟨none, none, none, none⟩ weakDH 512 (by decide) (by decide)
      (by decide) (by decide) (by decide) (by decide)).1 (by decide) (svcKey, svcCert)
      (by decide)).1
  · exact ((C4_amended envA ⟨some "tls.key", some "tls.crt", none, none⟩ weakDH 512
      (by decide) (by decide) (by decide) (by decide) (by decide) (by decide)).2
      (by decide) (by decide) (by decide) (by decide) (by decide)).1

/-- Claim C5: idempotence. With a persisted DH parameter of strength at
least 1024 bits and no dhparam file configured, a provisioning call in
either mode performs no store write, leaves the persisted value
unchanged, returns that same parameter in the bundle, and a repeated
call gives the identical result. -/
theorem C5 (env : Env) (opts : TLSConfig) (d : List Char) (s : Nat)
    (hd : d ≠ []) (hs : env.inspectSize d = some s) (h1024 : 1024 ≤ s) :
    ((opts.key.isSome && opts.cert.isSome) = true →
      cfgTruthy opts.dhparam = false →
      truthy (userData env opts).1 = true →
      truthy (userData env opts).2.1 = true →
      (cfgTruthy opts.ca && !truthy (userData env opts).2.2.1) = false →
      (tlsInit env opts (some d)).store = some d ∧
      (tlsInit env opts (some d)).writes = 0 ∧
      (∀ m, (tlsInit env opts (some d)).out = .ok m → m.dhparam = some d) ∧
      tlsInit env opts ((tlsInit env opts (some d)).store) = tlsInit env opts (some d)) ∧
    ((opts.key.isSome && opts.cert.isSome) = false →
      ∀ kc, env.certGen = some kc →
      (tlsInit env opts (some d)).store = some d ∧
      (tlsInit env opts (some d)).writes = 0 ∧
      (tlsInit env opts (some d)).out = .ok ⟨true, kc.1, kc.2, none, some d⟩ ∧
      tlsInit env opts ((tlsInit env opts (some d)).store) = tlsInit env opts (some d)) := by
  have htd : truthy (some d) = true := truthy_some_of_ne hd
  constructor
  · intro h1 h2 h3 h4 h5
    have hdn := @userData_dhparam_none env opts h2
    have hres : tlsInit env opts (some d) =
        ⟨.ok (finish ((userData env opts).1.getD []) ((userData env opts).2.1.getD [])
          ((userData env opts).2.2.1) d), some d, 1, 0, 0⟩ := by
      rw [tlsInit_user h1, hdn]
      simp [userBranch, h2, h3, h4, h5, htd, truthy_none]
    rw [hres]
    refine ⟨rfl, rfl, ?_, hres⟩
    intro m hm
    have heq : finish ((userData env opts).1.getD []) ((userData env opts).2.1.getD [])
        ((userData env opts).2.2.1) d = m := by
      simpa using hm
    rw [← heq, finish_dhparam]
  · intro h1 kc hkc
    have hlt : ¬ s < 1024 := by omega
    have hres : tlsInit env opts (some d) =
        ⟨.ok ⟨true, kc.1, kc.2, none, some d⟩, some d, 1, 0, 1⟩ := by
      rw [tlsInit_self h1]
      simp [selfBranch, hkc, htd, hs, hlt]
    rw [hres]
    exact ⟨rfl, rfl, rfl, hres⟩

/-- Claim C5, witness at concrete inputs in both modes. -/
theorem C5_witness :
    (tlsInit envA ⟨some "tls.key", some "tls.crt", none, none⟩ (some strongDH)).store
      = some strongDH ∧
    (tlsInit envA ⟨none, none, none, none⟩ (some strongDH)).store = some strongDH := by
  constructor
  · exact ((C5 envA ⟨some "tls.key", some "tls.crt", none, none⟩ strongDH 2048
      (by decide) (by decide) (by decide)).1 (by decide) (by decide) (by decide)
      (by decide) (by decide)).1
  · exact ((C5 envA ⟨none, none, none, none⟩ strongDH 2048 (by decide) (by decide)
      (by decide)).2 (by decide) (svcKey, svcCert) (by decide)).1

/-- Claim C6: fail-fast validation order in user-supplied mode. The
presence checks run in the fixed order key, cert, ca, dhparam, and the
first failing check determines the error. -/
theorem C6 (env : Env) (opts : TLSConfig) (store : Option (List Char))
    (h1 : (opts.key.isSome && opts.cert.isSome) = true) :
    (truthy (userData env opts).1 = false →
      (tlsInit env opts store).out = .error .MissingKeyFile) ∧
    (truthy (userData env opts).1 = true →
      truthy (userData env opts).2.1 = false →
      (tlsInit env opts store).out = .error .MissingCertFile) ∧
    (truthy (userData env opts).1 = true →
      truthy (userData env opts).2.1 = true →
      (cfgTruthy opts.ca && !truthy (userData env opts).2.2.1) = true →
      (tlsInit env opts store).out = .error .MissingCAFile) ∧
    (truthy (userData env opts).1 = true →
      truthy (userData env opts).2.1 = true →
      (cfgTruthy opts.ca && !truthy (userData env opts).2.2.1) = false →
      (cfgTruthy opts.dhparam && !truthy (userData env opts).2.2.2) = true →
      (tlsInit env opts store).out = .error .MissingDHParamFile) := by
  refine ⟨?_, ?_, ?_, ?_⟩
  · intro hk
    rw [tlsInit_user h1]
    simp [userBranch, hk]
  · intro hk hc
    rw [tlsInit_user h1]
    simp [userBranch, hk, hc]
  · intro hk hc hca
    rw [tlsInit_user h1]
    simp [userBranch, hk, hc, hca]
  · intro hk hc hca hdh
    rw [tlsInit_user h1]
    simp [userBranch, hk, hc, hca, hdh]

/-- Claim C6, witness: the configuration with both key and cert paths
set where neither file exists fails with the missing-key error. -/
theorem C6_witness :
    (tlsInit envA ⟨some "nope.key", some "nope.crt", none, none⟩ none).out
      = .error .MissingKeyFile :=
  (C6 envA ⟨some "nope.key", some "nope.crt", none, none⟩ none (by decide)).1 (by decide)

theorem userBranch_ok_dhparam {env : Env} {opts : TLSConfig} {store : Option (List Char)}
    {key cert ca dhparam : Option (List Char)} {m : TLSMaterial}
    (h : (userBranch env opts store key cert ca dhparam).out = .ok m) :
    ∃ d, m.dhparam = some d := by
  unfold userBranch at h
  repeat' split at h
  all_goals dsimp only at h
  all_goals
    first
      | exact Except.noConfusion h
      | (injection h with h
         subst h
         exact ⟨_, finish_dhparam _ _ _ _⟩)

theorem selfBranch_ok_dhparam {env : Env} {store : Option (List Char)} {m : TLSMaterial}
    (h : (selfBranch env store).out = .ok m) :
    ∃ d, m.dhparam = some d := by
  unfold selfBranch at h
  repeat' split at h
  all_goals dsimp only at h
  all_goals
    first
      | exact Except.noConfusion h
      | (injection h with h
         subst h
         exact ⟨_, rfl⟩)

/-- Claim C7: every successful provisioning call returns a bundle with
a non-absent dhparam value, in every mode and on every path. -/
theorem C7 (env : Env) (opts : TLSConfig) (store : Option (List Char))
    (m : TLSMaterial) (h : (tlsInit env opts store).out = .ok m) :
    ∃ d, m.dhparam = some d := by
  by_cases h1 : (opts.key.isSome && opts.cert.isSome) = true
  · rw [tlsInit_user h1] at h
    exact userBranch_ok_dhparam h
  · rw [tlsInit_self (by simpa using h1)] at h
    exact selfBranch_ok_dhparam h

/-- Claim C7, witness: the theorem applied to a concrete successful
self-signed call. -/
theorem C7_witness :
    ∃ d, TLSMaterial.dhparam ⟨true, svcKey, svcCert, none, some freshDH⟩ = some d :=
  C7 envA ⟨none, none, none, none⟩ none ⟨true, svcKey, svcCert, none, some freshDH⟩
    (by decide)

/-- Claim C8, counterexample: an absolute configured key path is passed
through `path.resolve` unchanged, so the issued read targets a location
that is not under the home base directory, and the call succeeds using
the bytes read from that outside location. -/
theorem C8_counterexample :
    resolvePath homeDir "/etc/tls/server.key" = "/etc/tls/server.key" ∧
    ((resolvePath homeDir "/etc/tls/server.key").data.take homeDir.data.length
      == homeDir.data) = false ∧
    (tlsInit envA ⟨some "/etc/tls/server.key", some "tls.crt", none, some "strong.dh"⟩
      none).out = .ok ⟨false, keyPem, certPem, none, some strongDH⟩ :=
  ⟨by decide, by decide, by decide⟩

/-- Claim C8, amended: a relative configured key path is resolved
against the fixed home base directory, but an absolute configured path
(leading slash) is used verbatim by `path.resolve` and may target a
location outside the base directory; in either case, the key bytes of a
successful bundle are exactly the file contents found at the resolved
location. -/
theorem C8_amended (env : Env) (opts : TLSConfig) (store : Option (List Char))
    (kp : String) (K : List Char)
    (hkp : opts.key = some kp) (hc : opts.cert.isSome = true)
    (hfs : env.fs (resolvePath env.home kp) = .file K) :
    (userData env opts).1 = some K ∧
    (kp.data.head? = some '/' → resolvePath env.home kp = kp) ∧
    (kp.data.head? ≠ some '/' → resolvePath env.home kp = env.home ++ "/" ++ kp) ∧
    (∀ m, (tlsInit env opts store).out = .ok m → m.key = K) := by
  have hread : (userData env opts).1 = some K := by
    simp [userData, userPaths, hkp, readFile, hfs]
  refine ⟨hread, ?_, ?_, ?_⟩
  · intro habs
    simp [resolvePath, habs]
  · intro hrel
    simp [resolvePath, hrel]
  · intro m h
    have h1 : (opts.key.isSome && opts.cert.isSome) = true := by
      simp [hkp, hc]
    rw [tlsInit_user h1, hread] at h
    unfold userBranch at h
    repeat' split at h
    all_goals dsimp only at h
    all_goals
      first
        | exact Except.noConfusion h
        | (injection h with h
           subst h
           exact finish_key _ _ _ _)

/-- Claim C8, witness for the amended theorem: the absolute-path case
at concrete inputs. -/
theorem C8_amended_witness :
    (userData envA ⟨some "/etc/tls/server.key", some "tls.crt", none, some "strong.dh"⟩).1
      = some keyPem ∧
    resolvePath homeDir "/etc/tls/server.key" = "/etc/tls/server.key" := by
  have h := C8_amended envA ⟨some "/etc/tls/server.key", some "tls.crt", none,
    some "strong.dh"⟩ none "/etc/tls/server.key" keyPem rfl (by decide) (by decide)
  exact ⟨h.1, h.2.1 (by decide)⟩

/-- Claim C9: a configured key path whose target exists but is not a
regular file (here: a directory) is treated exactly like an absent
file — the internal reader returns absent, and the call fails with the
missing-key error rather than an I/O error. -/
theorem C9 (env : Env) (opts : TLSConfig) (store : Option (List Char)) (kp : String)
    (hkp : opts.key = some kp) (hc : opts.cert.isSome = true)
    (hdir : env.fs (resolvePath env.home kp) = .dir) :
    readFile env.fs (some (resolvePath env.home kp)) = none ∧
    (tlsInit env opts store).out = .error .MissingKeyFile := by
  have hrf : readFile env.fs (some (resolvePath env.home kp)) = none := by
    simp [readFile, hdir]
  refine ⟨hrf, ?_⟩
  have h1 : (opts.key.isSome && opts.cert.isSome) = true := by
    simp [hkp, hc]
  have hkey : (userData env opts).1 = none := by
    simp [userData, userPaths, hkp]
    simpa [readFile] using hrf
  rw [tlsInit_user h1, hkey]
  simp [userBranch, truthy_none]

/-- Claim C9, witness: a key path naming a directory fails with the
missing-key error at concrete inputs. -/
theorem C9_witness :
    (tlsInit envA ⟨some "dir.key", some "tls.crt", none, none⟩ (some strongDH)).out
      = .error .MissingKeyFile :=
  (C9 envA ⟨some "dir.key", some "tls.crt", none, none⟩ (some strongDH) "dir.key"
    rfl (by decide) (by decide)).2

/-- Claim C10: in user-supplied mode with a configured, readable
dhparam file of strength at least 1024 bits, the provisioning call
performs no store read and no store write, and the persisted value is
unchanged. -/
theorem C10 (env : Env) (opts : TLSConfig) (store : Option (List Char))
    (D : List Char) (s : Nat)
    (h1 : (opts.key.isSome && opts.cert.isSome) = true)
    (h3 : truthy (userData env opts).1 = true)
    (h4 : truthy (userData env opts).2.1 = true)
    (h5 : (cfgTruthy opts.ca && !truthy (userData env opts).2.2.1) = false)
    (hD : (userData env opts).2.2.2 = some D) (hDne : D ≠ [])
    (hs : env.inspectSize D = some s) (h1024 : 1024 ≤ s) :
    (tlsInit env opts store).reads = 0 ∧
    (tlsInit env opts store).writes = 0 ∧
    (tlsInit env opts store).store = store := by
  have htD : truthy (some D) = true := truthy_some_of_ne hDne
  have hlt : ¬ s < 1024 := by omega
  have hres : tlsInit env opts store =
      ⟨.ok (finish ((userData env opts).1.getD []) ((userData env opts).2.1.getD [])
        ((userData env opts).2.2.1) D), store, 0, 0, 1⟩ := by
    rw [tlsInit_user h1, hD]
    simp [userBranch, h3, h4, h5, htD, hs, hlt]
  rw [hres]
  exact ⟨rfl, rfl, rfl⟩

/-- Claim C10, witness at concrete inputs. -/
theorem C10_witness :
    (tlsInit envA ⟨some "tls.key", some "tls.crt", none, some "strong.dh"⟩
      (some weakDH)).store = some weakDH :=
  (C10 envA ⟨some "tls.key", some "tls.crt", none, some "strong.dh"⟩ (some weakDH)
    strongDH 2048 (by decide) (by decide) (by decide) (by decide) (by decide)
    (by decide) (by decide) (by decide)).2.2

/-- Claim C3: combined-bundle splitting. For a certificate buffer equal
to `LEAF ++ CHAIN` with no separate CA configured — where `LEAF` ends at
the first end-delimiter occurrence, contains a begin delimiter, and
`CHAIN` begins at its only begin-delimiter occurrence — the returned
bundle's cert equals `LEAF` exactly and its ca equals `CHAIN` exactly,
byte for byte: the chain is the substring from the last occurrence of
the begin delimiter to the buffer end, the leaf the substring from the
buffer start through the end of the first end delimiter. -/
theorem C3 (env : Env) (opts : TLSConfig) (store : Option (List Char))
    (K LEAF CHAIN D : List Char) (s : Nat) (iL : Nat)
    (h1 : (opts.key.isSome && opts.cert.isSome) = true)
    (hca : cfgTruthy opts.ca = false)
    (hud : userData env opts = (some K, some (LEAF ++ CHAIN), none, some D))
    (hK : K ≠ []) (hD : D ≠ [])
    (hs : env.inspectSize D = some s) (h1024 : 1024 ≤ s)
    (hEndAt : occursAt LEAF certEnd (LEAF.length - certEnd.length))
    (hEndLe : certEnd.length ≤ LEAF.length)
    (hEndOnly : ∀ i ≤ LEAF.length, occursAt LEAF certEnd i → i = LEAF.length - certEnd.length)
    (hStart0 : occursAt CHAIN certStart 0)
    (hStartOnly : ∀ i ≤ CHAIN.length, occursAt CHAIN certStart i → i = 0)
    (hLeafStart : occursAt LEAF certStart iL) :
    (tlsInit env opts store).out = .ok ⟨false, K, LEAF, some CHAIN, some D⟩ := by
  have htK : truthy (some K) = true := truthy_some_of_ne hK
  have htD : truthy (some D) = true := truthy_some_of_ne hD
  have hlen : 0 < LEAF.length :=
    Nat.lt_of_lt_of_le (List.length_pos.mpr certEnd_ne_nil) hEndLe
  have hbuf : LEAF ++ CHAIN ≠ [] := by
    intro hnil
    rcases List.append_eq_nil.mp hnil with ⟨hL, _⟩
    rw [hL] at hlen
    simp at hlen
  have htC : truthy (some (LEAF ++ CHAIN)) = true := truthy_some_of_ne hbuf
  have hlt : ¬ s < 1024 := by omega
  have hres : (tlsInit env opts store).out = .ok (finish K (LEAF ++ CHAIN) none D) := by
    rw [tlsInit_user h1, hud]
    simp [userBranch, htK, htC, htD, hca, hs, hlt]
  rw [hres, finish_split hEndAt hEndLe hEndOnly hStart0 hStartOnly iL hLeafStart]

/-- Claim C3, witness: a concrete combined certificate file splits into
its leaf and chain byte-exactly. -/
theorem C3_witness :
    (tlsInit envA ⟨some "tls.key", some "combined.crt", none, some "strong.dh"⟩ none).out
      = .ok ⟨false, keyPem, leafPem, some chainPem, some strongDH⟩ :=
  C3 envA ⟨some "tls.key", some "combined.crt", none, some "strong.dh"⟩ none
    keyPem leafPem chainPem strongDH 2048 0 (by decide) (by decide) (by decide)
    (by decide) (by decide) (by decide) (by decide) (by decide) (by decide)
    (by decide) (by decide) (by decide) (by decide)

end Droppy
